import Mathlib

/-!
Shallow embedding of the PHD2 linear-regression guide algorithm
(`guide_algorithm_linear_regression.cpp`).

Conventions of the embedding:
- C++ `double` values are modelled as `ℚ` (exact arithmetic over the same
  field operations the source performs);
- `size_t` index arithmetic keeps its wrap-around modulo `2 ^ 64`, so the
  source expression `i - 1` at `i = 0` becomes the index `2 ^ 64 - 1`;
- every container access that can be out of range is totalised with
  `Option`: an out-of-range read or write yields `none`;
- the `wxStopWatch timer_` member is modelled by the wall-clock instant
  `timer_start` at which it was last started, so `Time()` reads
  `raw_now - timer_start` for the externally supplied wall clock `raw_now`;
- `pFrame->RequestedExposureDuration()` is the externally supplied
  parameter `delta_controller_time_ms`.
-/

/-- Wrap-around modulus of the 64-bit C++ `size_t` type. -/
def sizeTMod : ℕ := 2 ^ 64

/-- One record of the history buffer (`lr_guiding_circular_datapoints`). -/
structure lr_guiding_circular_datapoints where
  timestamp : ℚ
  measurement : ℚ
  modified_measurement : ℚ
  control : ℚ
deriving DecidableEq

/-- `data_points()` value-initialises every field to zero. -/
def data_points_init : lr_guiding_circular_datapoints := ⟨0, 0, 0, 0⟩

/-- Modelled from the spec: the `circular_buffer` template class is not among
the sources; §3 of the spec describes it as a fixed-capacity (200 samples)
insertion-ordered FIFO ring whose oldest element is evicted first once full.
The list runs oldest to newest, so the element the source addresses as
`circular_buffer_parameters[size() - 1]` (its "last point", written right
after `push_front` by `HandleMeasurements`) is the most recently inserted
one, and the loop of `result` visits the series oldest to newest. -/
structure circular_buffer where
  capacity : ℕ
  data : List lr_guiding_circular_datapoints
deriving DecidableEq

def circular_buffer.size (b : circular_buffer) : ℕ := b.data.length

/-- Modelled from the spec: inserting into the FIFO ring appends the new
element, evicting the oldest one when the buffer is already full. -/
def circular_buffer.push_front (b : circular_buffer)
    (x : lr_guiding_circular_datapoints) : circular_buffer :=
  if b.capacity ≤ b.data.length then ⟨b.capacity, b.data.tail ++ [x]⟩
  else ⟨b.capacity, b.data ++ [x]⟩

/-- State block `GuideLinearRegression::lr_guide_parameters`; its
`mixing_parameter_` member is never initialised nor read in the source and
is omitted. -/
structure lr_guide_parameters where
  circular_buffer_parameters : circular_buffer
  timer_start : ℚ
  control_signal : ℚ
  control_gain : ℚ
  last_timestamp : ℚ
  filtered_signal : ℚ
  min_nb_element_for_inference : ℤ
deriving DecidableEq

def get_number_of_measurements (p : lr_guide_parameters) : ℕ :=
  p.circular_buffer_parameters.size

/-- `circular_buffer_parameters[circular_buffer_parameters.size() - 1]`, the
unsigned subtraction wrapping modulo `2 ^ 64`: on an empty buffer the index
is `2 ^ 64 - 1`, out of range. -/
def get_last_point (p : lr_guide_parameters) :
    Option lr_guiding_circular_datapoints :=
  p.circular_buffer_parameters.data.get?
    ((p.circular_buffer_parameters.size + sizeTMod - 1) % sizeTMod)

/-- `circular_buffer_parameters[circular_buffer_parameters.size() - 2]`. -/
def get_second_last_point (p : lr_guide_parameters) :
    Option lr_guiding_circular_datapoints :=
  p.circular_buffer_parameters.data.get?
    ((p.circular_buffer_parameters.size + sizeTMod - 2) % sizeTMod)

/-- Writing one field through the reference returned by `get_last_point()`:
out of range on an empty buffer. -/
def set_last_point (p : lr_guide_parameters)
    (f : lr_guiding_circular_datapoints → lr_guiding_circular_datapoints) :
    Option lr_guide_parameters :=
  let idx := (p.circular_buffer_parameters.size + sizeTMod - 1) % sizeTMod
  match p.circular_buffer_parameters.data.get? idx with
  | none => none
  | some d =>
      some { p with circular_buffer_parameters :=
              { p.circular_buffer_parameters with
                data := p.circular_buffer_parameters.data.set idx (f d) } }

/-- `lr_guide_parameters::add_one_point`: pushes a value-initialised record. -/
def add_one_point (p : lr_guide_parameters) : lr_guide_parameters :=
  { p with circular_buffer_parameters :=
      p.circular_buffer_parameters.push_front data_points_init }

/-- `lr_guide_parameters::clear`: clears the circular buffer and nothing else. -/
def lr_clear (p : lr_guide_parameters) : lr_guide_parameters :=
  { p with circular_buffer_parameters :=
      { p.circular_buffer_parameters with data := [] } }

def DefaultControlGain : ℚ := 1
def DefaultNbMinPointsForInference : ℤ := 25

/-- `GuideLinearRegression::SetControlGain`: returns the `error` flag
(`true` on rejection) together with the updated state; a rejected value
falls back to `DefaultControlGain`. -/
def SetControlGain (p : lr_guide_parameters) (control_gain : ℚ) :
    Bool × lr_guide_parameters :=
  if control_gain < 0 ∨ 1 < control_gain then
    (true, { p with control_gain := DefaultControlGain })
  else
    (false, { p with control_gain := control_gain })

/-- `GuideLinearRegression::SetNbElementForInference`. -/
def SetNbElementForInference (p : lr_guide_parameters) (nb_elements : ℤ) :
    Bool × lr_guide_parameters :=
  if nb_elements < 0 then
    (true, { p with min_nb_element_for_inference := DefaultNbMinPointsForInference })
  else
    (false, { p with min_nb_element_for_inference := nb_elements })

def GetControlGain (p : lr_guide_parameters) : ℚ := p.control_gain

def GetNbMeasurementsMin (p : lr_guide_parameters) : ℤ :=
  p.min_nb_element_for_inference

/-- `GuideLinearRegression::HandleTimestamps`.  Note the order in the
source: `last_timestamp_` is overwritten with `time_now` before the
timestamp of the last point is formed from it. -/
def HandleTimestamps (p : lr_guide_parameters) (raw_now : ℚ) :
    Option lr_guide_parameters :=
  let p1 := if get_number_of_measurements p = 0
              then { p with timer_start := raw_now } else p
  let time_now := raw_now - p1.timer_start
  let delta := time_now - p1.last_timestamp
  let p2 := { p1 with last_timestamp := time_now }
  set_last_point p2
    (fun d => { d with timestamp := (p2.last_timestamp - delta / 2) / 1000 })

/-- `GuideLinearRegression::HandleMeasurements`. -/
def HandleMeasurements (p : lr_guide_parameters) (input : ℚ) :
    Option lr_guide_parameters :=
  set_last_point p (fun d => { d with measurement := input })

/-- `GuideLinearRegression::HandleControls`.  The `else` branch of the
source (line 297) breaks off in the middle of the assignment
`parameters->get_last_point().control`; it is completed with the same
assignment the `then` branch performs, the store §4.4 of the spec
prescribes for every cycle. -/
def HandleControls (p : lr_guide_parameters) (control_input : ℚ) :
    Option lr_guide_parameters :=
  if get_number_of_measurements p ≤ 1 then
    set_last_point p (fun d => { d with control := control_input })
  else
    set_last_point p (fun d => { d with control := control_input })

/-- `GuideLinearRegression::HandleModifiedMeasurements` (present in the
source, but never invoked by `result` or `deduceResult`). -/
def HandleModifiedMeasurements (p : lr_guide_parameters) (input : ℚ) :
    Option lr_guide_parameters :=
  if get_number_of_measurements p ≤ 1 then
    set_last_point p (fun d => { d with modified_measurement := input })
  else
    match get_second_last_point p with
    | none => none
    | some prev =>
        set_last_point p (fun d =>
          { d with modified_measurement :=
              input + prev.control - prev.measurement + prev.modified_measurement })

/-- The `measurements(i)` assignment of the data-transfer loop: the source
tests `get_number_of_measurements() == 1` (not `i == 0`) and in the other
case reads `circular_buffer_parameters[i-1].control`, the unsigned `i - 1`
wrapping to `2 ^ 64 - 1` at `i = 0`. -/
def loop_measurement (p : lr_guide_parameters) (i : ℕ) : Option ℚ :=
  if get_number_of_measurements p = 1 then
    (p.circular_buffer_parameters.data.get? i).map (fun d => d.measurement)
  else do
    let prev ← p.circular_buffer_parameters.data.get? ((i + sizeTMod - 1) % sizeTMod)
    let cur ← p.circular_buffer_parameters.data.get? i
    pure (prev.control + cur.measurement)

/-- The data-transfer loop shared by `result` and `deduceResult`: for
`0 ≤ i < get_number_of_measurements()` it fills `timestamps(i)` from the
buffer and `measurements(i)` per `loop_measurement`. -/
def transfer_loop (p : lr_guide_parameters) : Option (List (ℚ × ℚ)) :=
  (List.range (get_number_of_measurements p)).mapM (fun i => do
    let d ← p.circular_buffer_parameters.data.get? i
    let m ← loop_measurement p i
    pure (d.timestamp, m))

/-- `GuideLinearRegression::result`.  After the transfer loop the source
constructs `feature_matrix(2, n-1)` and assigns rows of length `n` into its
`n-1` columns (a failing Eigen size assertion) and then solves against
`mod_measurements`, an identifier declared nowhere in the translation unit;
the activated branch therefore has no defined continuation past the loop
and is totalised to `none`.  (The loop itself already fails on every
activated call: see `transfer_loop_oob_on_activation`.) -/
def result (p : lr_guide_parameters) (input raw_now : ℚ)
    (delta_controller_time_ms : ℤ) : Option (ℚ × lr_guide_parameters) := do
  let p := add_one_point p
  let p ← HandleMeasurements p input
  let p ← HandleTimestamps p raw_now
  let p := { p with control_signal := p.control_gain * input }
  let p ← if 0 < p.min_nb_element_for_inference ∧
             p.min_nb_element_for_inference < (get_number_of_measurements p : ℤ) then do
        let _ ← transfer_loop p
        (none : Option lr_guide_parameters)
      else pure p
  let p ← HandleControls p p.control_signal
  pure (p.control_signal, p)

/-- `GuideLinearRegression::deduceResult`: same estimator branch as
`result` (with the same undefined continuation past the transfer loop,
totalised to `none`); when the estimator is inactive, `control_signal_`
keeps its previous value and is recorded and returned. -/
def deduceResult (p : lr_guide_parameters) (delta_controller_time_ms : ℤ) :
    Option (ℚ × lr_guide_parameters) := do
  let p ← if 0 < p.min_nb_element_for_inference ∧
             p.min_nb_element_for_inference < (get_number_of_measurements p : ℤ) then do
        let _ ← transfer_loop p
        (none : Option lr_guide_parameters)
      else pure p
  let p ← HandleControls p p.control_signal
  pure (p.control_signal, p)

/-- `GuideLinearRegression::reset`: calls `parameters->clear()` and nothing
else. -/
def reset (p : lr_guide_parameters) : lr_guide_parameters := lr_clear p

/-- The `GuideLinearRegression` constructor: `lr_guide_parameters()` builds
an empty capacity-200 buffer and zeroes `control_signal_`,
`last_timestamp_`, `filtered_signal_` and `min_nb_element_for_inference`
(`control_gain_` is left uninitialised in the source and is modelled as 0;
it is overwritten by `SetControlGain` below before any read); the loaded
configuration values are then pushed through the two validating setters and
`reset()` is called.  `construction_now` is the wall clock at which the
`wxStopWatch` member starts running. -/
def mkController (gain_cfg : ℚ) (min_cfg : ℤ) (construction_now : ℚ) :
    lr_guide_parameters :=
  let p0 : lr_guide_parameters :=
    { circular_buffer_parameters := ⟨200, []⟩
      timer_start := construction_now
      control_signal := 0
      control_gain := 0
      last_timestamp := 0
      filtered_signal := 0
      min_nb_element_for_inference := 0 }
  let p1 := (SetControlGain p0 gain_cfg).2
  let p2 := (SetNbElementForInference p1 min_cfg).2
  reset p2

/-- One externally triggered operation on the controller. -/
inductive LROp where
  | step (input raw_now : ℚ) (delta_controller_time_ms : ℤ)
  | predict (delta_controller_time_ms : ℤ)
  | doReset

/-- Effect of one operation on the state. -/
def applyOp (p : lr_guide_parameters) : LROp → Option lr_guide_parameters
  | .step input raw_now dur => (result p input raw_now dur).map Prod.snd
  | .predict dur => (deduceResult p dur).map Prod.snd
  | .doReset => some (reset p)

/-- Running a sequence of operations. -/
def runOps : lr_guide_parameters → List LROp → Option lr_guide_parameters
  | p, [] => some p
  | p, op :: ops => (applyOp p op).bind (fun q => runOps q ops)

/-- Concrete state used for closed instances: one buffered sample whose
control equals the stored control signal (exactly what one `step` call with
gain 1, input 5 at wall-clock 1 on a fresh controller produces). -/
def oneSampleState : lr_guide_parameters :=
  { circular_buffer_parameters := ⟨200, [⟨1/2000, 5, 0, 5⟩]⟩
    timer_start := 0
    control_signal := 5
    control_gain := 1
    last_timestamp := 1
    filtered_signal := 0
    min_nb_element_for_inference := 0 }

/-- Concrete state used for closed instances: two buffered samples with an
activation threshold of 1, so the estimator activation condition holds. -/
def twoSampleActiveState : lr_guide_parameters :=
  { circular_buffer_parameters := ⟨200, [⟨1/2000, 1, 0, 1⟩, ⟨3/2000, 1, 0, 1⟩]⟩
    timer_start := 0
    control_signal := 1
    control_gain := 1
    last_timestamp := 2
    filtered_signal := 0
    min_nb_element_for_inference := 1 }

/-- Concrete state used for closed instances: exactly what one `step` call
with input 1 at wall clock 10 on `mkController 1 0 0` produces (all
arithmetic kept in unreduced form). -/
def stepOnceState : lr_guide_parameters :=
  { circular_buffer_parameters :=
      ⟨200, [{ timestamp := (10 - 0 - (10 - 0 - 0) / 2) / 1000,
               measurement := 1, modified_measurement := 0, control := 1 * 1 }]⟩
    timer_start := 0
    control_signal := 1 * 1
    control_gain := 1
    last_timestamp := 10 - 0
    filtered_signal := 0
    min_nb_element_for_inference := 0 }

/-! ### Helper lemmas -/

theorem sizeTMod_pos : 0 < sizeTMod := by norm_num [sizeTMod]

/-- Index of the last point: for a buffer of positive length within the
`size_t` range, the wrapped `size() - 1` is the plain `size() - 1`. -/
theorem last_idx {n m : ℕ} (h1 : 0 < n) (h2 : n ≤ m) : (n + m - 1) % m = n - 1 := by
  have h3 : n + m - 1 = (n - 1) + m := by omega
  rw [h3, Nat.add_mod_right, Nat.mod_eq_of_lt]
  omega

/-- Setting the element after the initial segment. -/
theorem set_concat {α : Type} (l : List α) (d x : α) :
    (l ++ [d]).set l.length x = l ++ [x] := by
  induction l with
  | nil => rfl
  | cons a t ih => simp [List.set, ih]

/-- Pushing onto the ring always appends the new element at the end. -/
theorem push_front_concat (b : circular_buffer) (x : lr_guiding_circular_datapoints) :
    ∃ l, (b.push_front x).data = l ++ [x] ∧ l.length ≤ b.data.length ∧
      (b.push_front x).capacity = b.capacity := by
  unfold circular_buffer.push_front
  split
  · exact ⟨b.data.tail, rfl, by simp [List.length_tail], rfl⟩
  · exact ⟨b.data, rfl, le_refl _, rfl⟩

/-- At capacity 200 the buffer never grows past 200 elements. -/
theorem push_front_length_le {b : circular_buffer} (x : lr_guiding_circular_datapoints)
    (hcap : b.capacity = 200) (hlen : b.data.length ≤ 200) :
    (b.push_front x).data.length ≤ 200 := by
  unfold circular_buffer.push_front
  split
  · simp only [List.length_append, List.length_tail, List.length_cons, List.length_nil]
    omega
  · simp only [List.length_append, List.length_cons, List.length_nil]
    omega

/-- The pushed buffer is never shorter than the original one. -/
theorem push_front_length_ge {b : circular_buffer} (x : lr_guiding_circular_datapoints) :
    b.data.length ≤ (b.push_front x).data.length := by
  unfold circular_buffer.push_front
  split
  · simp only [List.length_append, List.length_tail, List.length_cons, List.length_nil]
    omega
  · simp only [List.length_append, List.length_cons, List.length_nil]
    omega

/-- Writing the last point of a nonempty buffer rewrites exactly its final
element. -/
theorem set_last_point_concat {p : lr_guide_parameters}
    {l : List lr_guiding_circular_datapoints} {d : lr_guiding_circular_datapoints}
    (h : p.circular_buffer_parameters.data = l ++ [d])
    (hlen : l.length + 1 ≤ sizeTMod)
    (f : lr_guiding_circular_datapoints → lr_guiding_circular_datapoints) :
    set_last_point p f =
      some { p with circular_buffer_parameters :=
              { p.circular_buffer_parameters with data := l ++ [f d] } } := by
  have hsize : p.circular_buffer_parameters.size = l.length + 1 := by
    simp [circular_buffer.size, h]
  have hidx : (p.circular_buffer_parameters.size + sizeTMod - 1) % sizeTMod = l.length := by
    rw [hsize, last_idx (Nat.succ_pos _) hlen]
    rfl
  simp only [set_last_point]
  rw [hidx, h, List.get?_concat_length]
  simp [set_concat]

/-- A successful `set_last_point` preserves every field of the state except
the rewritten content of the buffer, and preserves the buffer's length and
capacity. -/
theorem set_last_point_some {p q : lr_guide_parameters}
    {f : lr_guiding_circular_datapoints → lr_guiding_circular_datapoints}
    (h : set_last_point p f = some q) :
    q.timer_start = p.timer_start ∧ q.control_signal = p.control_signal ∧
    q.control_gain = p.control_gain ∧ q.last_timestamp = p.last_timestamp ∧
    q.filtered_signal = p.filtered_signal ∧
    q.min_nb_element_for_inference = p.min_nb_element_for_inference ∧
    q.circular_buffer_parameters.capacity = p.circular_buffer_parameters.capacity ∧
    q.circular_buffer_parameters.data.length = p.circular_buffer_parameters.data.length := by
  simp only [set_last_point] at h
  split at h
  · exact Option.noConfusion h
  · cases h
    simp

/-- `HandleControls` performs the same store in both of its branches. -/
theorem HandleControls_eq (p : lr_guide_parameters) (c : ℚ) :
    HandleControls p c = set_last_point p (fun d => { d with control := c }) := by
  unfold HandleControls
  split <;> rfl

/-- A bind whose continuation is constantly `none` is `none`. -/
theorem bind_const_none {α β : Type} (x : Option α) :
    (x.bind fun _ => (none : Option β)) = none := by
  cases x <;> rfl

/-- On any buffer of at least two and at most 200 points, the data-transfer
loop fails at its very first iteration: with `n ≠ 1` the `else` branch reads
`circular_buffer_parameters[i-1]` where the unsigned `i - 1` wraps to
`2 ^ 64 - 1` at `i = 0`, an out-of-range index. -/
theorem transfer_loop_none {p : lr_guide_parameters}
    (h2 : 2 ≤ p.circular_buffer_parameters.data.length)
    (hM : p.circular_buffer_parameters.data.length ≤ 200) :
    transfer_loop p = none := by
  have hn : get_number_of_measurements p = p.circular_buffer_parameters.data.length := rfl
  have hm : loop_measurement p 0 = none := by
    unfold loop_measurement
    rw [if_neg (by rw [hn]; omega)]
    have hidx : (0 + sizeTMod - 1) % sizeTMod = sizeTMod - 1 := by
      have h0 : 0 < sizeTMod := sizeTMod_pos
      rw [Nat.zero_add]
      exact Nat.mod_eq_of_lt (by omega)
    rw [hidx]
    have hget : p.circular_buffer_parameters.data.get? (sizeTMod - 1) = none := by
      rw [List.get?_eq_none]
      have h200 : (200 : ℕ) ≤ sizeTMod - 1 := by norm_num [sizeTMod]
      omega
    simp only [List.get?_eq_getElem?] at hget
    simp [hget]
  obtain ⟨k, hk⟩ : ∃ k, get_number_of_measurements p = k + 1 :=
    ⟨p.circular_buffer_parameters.data.length - 1, by rw [hn]; omega⟩
  unfold transfer_loop
  rw [hk, List.range_succ_eq_map, List.mapM_cons]
  simp [hm, bind_const_none]

/-- When the activation condition holds, `deduceResult` has no defined
value. -/
theorem deduceResult_active_none {p : lr_guide_parameters} {dur : ℤ}
    (hact : 0 < p.min_nb_element_for_inference ∧
      p.min_nb_element_for_inference < (get_number_of_measurements p : ℤ)) :
    deduceResult p dur = none := by
  unfold deduceResult
  rw [if_pos hact]
  simp [bind_const_none]

/-- A successful `HandleTimestamps` preserves the buffer length and
capacity, the gain, the threshold and the control signal; the timer is
restarted only when the buffer is empty at the moment of the call, and
`last_timestamp` is overwritten with the elapsed time unconditionally. -/
theorem HandleTimestamps_some {p q : lr_guide_parameters} {raw_now : ℚ}
    (h : HandleTimestamps p raw_now = some q) :
    q.min_nb_element_for_inference = p.min_nb_element_for_inference ∧
    q.circular_buffer_parameters.data.length = p.circular_buffer_parameters.data.length ∧
    q.circular_buffer_parameters.capacity = p.circular_buffer_parameters.capacity ∧
    q.control_gain = p.control_gain ∧
    q.control_signal = p.control_signal ∧
    q.timer_start = (if get_number_of_measurements p = 0 then raw_now else p.timer_start) ∧
    q.last_timestamp =
      raw_now - (if get_number_of_measurements p = 0 then raw_now else p.timer_start) := by
  simp only [HandleTimestamps] at h
  split at h
  case isTrue hc =>
    have h' := set_last_point_some h
    rw [if_pos hc]
    exact ⟨h'.2.2.2.2.2.1, h'.2.2.2.2.2.2.2, h'.2.2.2.2.2.2.1, h'.2.2.1, h'.2.1, h'.1, h'.2.2.2.1⟩
  case isFalse hc =>
    have h' := set_last_point_some h
    rw [if_neg hc]
    exact ⟨h'.2.2.2.2.2.1, h'.2.2.2.2.2.2.2, h'.2.2.2.2.2.2.1, h'.2.2.1, h'.2.1, h'.1, h'.2.2.2.1⟩

/-- When the activation condition holds on the state the new point has been
pushed into, `result` has no defined value. -/
theorem result_active_none {p : lr_guide_parameters} {input raw_now : ℚ} {dur : ℤ}
    (hact : 0 < p.min_nb_element_for_inference ∧
      p.min_nb_element_for_inference <
        ((add_one_point p).circular_buffer_parameters.data.length : ℤ)) :
    result p input raw_now dur = none := by
  unfold result
  cases hm : HandleMeasurements (add_one_point p) input with
  | none =>
    simp only [hm]
    rfl
  | some p1 =>
    simp only [hm, Option.bind_eq_bind', Option.some_bind']
    cases ht : HandleTimestamps p1 raw_now with
    | none => simp [ht]
    | some p2 =>
      simp only [ht, Option.bind_eq_bind', Option.some_bind']
      have hm' := set_last_point_some
        (f := fun d => { d with measurement := input }) hm
      have ht' := HandleTimestamps_some ht
      have hcond : 0 < p2.min_nb_element_for_inference ∧
          p2.min_nb_element_for_inference <
            (p2.circular_buffer_parameters.data.length : ℤ) := by
        rw [ht'.1, hm'.2.2.2.2.2.1, ht'.2.1, hm'.2.2.2.2.2.2.2]
        exact hact
      split
      · simp [Option.bind_eq_bind', bind_const_none]
      · next hc => exact absurd hcond hc

/-- A circular buffer with known capacity and contents is that literal. -/
theorem circular_buffer_eq {b : circular_buffer} {c : ℕ}
    {d : List lr_guiding_circular_datapoints}
    (h1 : b.capacity = c) (h2 : b.data = d) : b = ⟨c, d⟩ := by
  cases b
  cases h1
  cases h2
  rfl

/-- Full characterisation of `result` when the estimator is inactive: the
new point is appended (evicting the oldest sample if the ring is full), its
measurement and timestamp are recorded, `modified_measurement` is left at
its zero initialisation, the control output `control_gain * input` is
stored into it, and the timing state advances without ever restarting the
timer. -/
theorem result_inactive_eq (p : lr_guide_parameters) (input raw_now : ℚ) (dur : ℤ)
    (hlen : p.circular_buffer_parameters.data.length ≤ 200)
    (hinact : ¬(0 < p.min_nb_element_for_inference ∧
      p.min_nb_element_for_inference <
        ((p.circular_buffer_parameters.push_front data_points_init).data.length : ℤ))) :
    ∃ l, (p.circular_buffer_parameters.push_front data_points_init).data
          = l ++ [data_points_init] ∧ l.length ≤ p.circular_buffer_parameters.data.length ∧
      result p input raw_now dur = some (p.control_gain * input,
        { circular_buffer_parameters :=
            ⟨p.circular_buffer_parameters.capacity,
              l ++ [{ timestamp := ((raw_now - p.timer_start) -
                        ((raw_now - p.timer_start) - p.last_timestamp) / 2) / 1000,
                      measurement := input,
                      modified_measurement := 0,
                      control := p.control_gain * input }]⟩,
          timer_start := p.timer_start,
          control_signal := p.control_gain * input,
          control_gain := p.control_gain,
          last_timestamp := raw_now - p.timer_start,
          filtered_signal := p.filtered_signal,
          min_nb_element_for_inference := p.min_nb_element_for_inference }) := by
  obtain ⟨l, hl, hllen, hcap⟩ := push_front_concat p.circular_buffer_parameters data_points_init
  refine ⟨l, hl, hllen, ?_⟩
  have hlen1 : l.length + 1 ≤ sizeTMod := by
    have h202 : (202 : ℕ) ≤ sizeTMod := by norm_num [sizeTMod]
    omega
  have ha : add_one_point p =
      { p with circular_buffer_parameters :=
          ⟨p.circular_buffer_parameters.capacity, l ++ [data_points_init]⟩ } := by
    unfold add_one_point
    rw [circular_buffer_eq hcap hl]
  have e1 : HandleMeasurements
      { p with circular_buffer_parameters :=
          ⟨p.circular_buffer_parameters.capacity, l ++ [data_points_init]⟩ } input =
      some { p with circular_buffer_parameters :=
          ⟨p.circular_buffer_parameters.capacity,
            l ++ [{ timestamp := 0, measurement := input,
                    modified_measurement := 0, control := 0 }]⟩ } :=
    set_last_point_concat (l := l) (d := data_points_init) rfl hlen1 _
  have e2 : HandleTimestamps
      { p with circular_buffer_parameters :=
          ⟨p.circular_buffer_parameters.capacity,
            l ++ [{ timestamp := 0, measurement := input,
                    modified_measurement := 0, control := 0 }]⟩ } raw_now =
      some { p with
        circular_buffer_parameters :=
          ⟨p.circular_buffer_parameters.capacity,
            l ++ [{ timestamp := ((raw_now - p.timer_start) -
                      ((raw_now - p.timer_start) - p.last_timestamp) / 2) / 1000,
                    measurement := input, modified_measurement := 0, control := 0 }]⟩,
        last_timestamp := raw_now - p.timer_start } := by
    simp only [HandleTimestamps]
    rw [if_neg (by simp [get_number_of_measurements, circular_buffer.size])]
    exact set_last_point_concat (l := l)
      (d := { timestamp := 0, measurement := input,
              modified_measurement := 0, control := 0 }) rfl hlen1 _
  have e4 : HandleControls
      { p with
        circular_buffer_parameters :=
          ⟨p.circular_buffer_parameters.capacity,
            l ++ [{ timestamp := ((raw_now - p.timer_start) -
                      ((raw_now - p.timer_start) - p.last_timestamp) / 2) / 1000,
                    measurement := input, modified_measurement := 0, control := 0 }]⟩,
        control_signal := p.control_gain * input,
        last_timestamp := raw_now - p.timer_start } (p.control_gain * input) =
      some { p with
        circular_buffer_parameters :=
          ⟨p.circular_buffer_parameters.capacity,
            l ++ [{ timestamp := ((raw_now - p.timer_start) -
                      ((raw_now - p.timer_start) - p.last_timestamp) / 2) / 1000,
                    measurement := input, modified_measurement := 0,
                    control := p.control_gain * input }]⟩,
        control_signal := p.control_gain * input,
        last_timestamp := raw_now - p.timer_start } := by
    rw [HandleControls_eq]
    exact set_last_point_concat (l := l)
      (d := { timestamp := ((raw_now - p.timer_start) -
                ((raw_now - p.timer_start) - p.last_timestamp) / 2) / 1000,
              measurement := input, modified_measurement := 0, control := 0 }) rfl hlen1 _
  have hinact2 : ¬(0 < p.min_nb_element_for_inference ∧
      p.min_nb_element_for_inference < ((l.length + 1 : ℕ) : ℤ)) := by
    intro hc
    apply hinact
    rw [hl]
    simpa using hc
  simp only [result]
  rw [ha]
  simp only [e1, Option.bind_eq_bind', Option.some_bind']
  simp only [e2, Option.some_bind']
  simp only [get_number_of_measurements, circular_buffer.size, List.length_append,
    List.length_singleton]
  rw [if_neg hinact2]
  simp only [Option.pure_def, Option.some_bind']
  simp only [e4, Option.some_bind']

/-- When the estimator is inactive, `deduceResult` records the previous
control signal into the last point and returns it unchanged. -/
theorem deduceResult_inactive_eq (p : lr_guide_parameters) (dur : ℤ)
    (hinact : ¬(0 < p.min_nb_element_for_inference ∧
      p.min_nb_element_for_inference < (get_number_of_measurements p : ℤ))) :
    deduceResult p dur
      = (set_last_point p (fun d => { d with control := p.control_signal })).map
          (fun q => (q.control_signal, q)) := by
  simp only [deduceResult]
  rw [if_neg hinact]
  simp only [Option.pure_def, Option.bind_eq_bind', Option.some_bind', HandleControls_eq]
  cases set_last_point p (fun d => { d with control := p.control_signal }) <;> rfl

/-! ### Claim theorems -/

/-- Claim C1: concrete evaluation of the claimed control law.  With gain 1
and activation threshold 3, four step calls with raw measurement 1 (wall
clocks 1,2,3,4, next interval 1000 ms): the three-call prefix is defined
(each inactive call returning the proportional value), but the fourth call,
the first on which the activation condition holds (4 > 3), does not return
proportional + predictive — it faults in the regression path and has no
defined value; with threshold 0 a call returns exactly
gain * raw_measurement. -/
theorem step_spec_scenario_faults :
    ((result (mkController 1 3 0) 1 1 1000).bind (fun r =>
      (result r.2 1 2 1000).bind (fun r2 =>
        result r2.2 1 3 1000))).isSome = true ∧
    ((result (mkController 1 3 0) 1 1 1000).bind (fun r =>
      (result r.2 1 2 1000).bind (fun r2 =>
        (result r2.2 1 3 1000).bind (fun r3 =>
          result r3.2 1 4 1000)))) = none ∧
    (result (mkController 1 0 0) 5 1 1000).map Prod.fst = some (1 * 5) := by
  refine ⟨by decide, by decide, by rfl⟩

/-- Claim C2: after two step calls with raw measurement 1 (gain 1,
threshold 0), every buffered `modified_measurement` is still the zero
initialisation although the raw measurements 1 were stored — `result`
never invokes `HandleModifiedMeasurements`, so the claimed value (raw for
the first sample, the recursive sum afterwards) is never written; applying
the in-repo (dead) `HandleModifiedMeasurements` to the very same state
would have stored `1 + 1*1 - 1 + 0 = 1 ≠ 0` into the last sample. -/
theorem step_leaves_modified_measurement_zero :
    ((result (mkController 1 0 0) 1 1 1000).bind (fun r => result r.2 1 2 1000)).map
        (fun r => r.2.circular_buffer_parameters.data.map
          (fun d => d.modified_measurement)) = some [0, 0] ∧
    ((result (mkController 1 0 0) 1 1 1000).bind (fun r => result r.2 1 2 1000)).map
        (fun r => r.2.circular_buffer_parameters.data.map
          (fun d => d.measurement)) = some [1, 1] ∧
    ((result (mkController 1 0 0) 1 1 1000).bind (fun r =>
        (result r.2 1 2 1000).bind (fun r2 =>
          (HandleModifiedMeasurements r2.2 1).bind (fun q =>
            (get_last_point q).map (fun d => d.modified_measurement)))))
      = some (1 + 1 * 1 - 1 + 0) ∧
    (1 + 1 * 1 - 1 + 0 : ℚ) = 1 ∧ (1 : ℚ) ≠ 0 := by
  refine ⟨by decide, by decide, by rfl, by norm_num, by decide⟩

/-- Claim C5: evaluation at an activated call.  With gain 1 and threshold
1, the first step call is defined, but the second call — the first with the
activation condition true (2 > 1) — does not perform any least-squares fit
over `(timestamp, corrected_measurement)` pairs: it faults in the
regression path and has no defined value. -/
theorem regression_path_faults_on_activation :
    (result (mkController 1 1 0) 1 1 1000).isSome = true ∧
    ((result (mkController 1 1 0) 1 1 1000).bind (fun r =>
      result r.2 1 2 1000)) = none := by
  refine ⟨by decide, by decide⟩

/-- Claim C3 counterexample: after one step call at wall clock 10,
`reset()` empties the history but leaves `last_timestamp_` at its stale
value `10 - 0 ≠ 0` — the timing state is not zeroed. -/
theorem reset_does_not_zero_timing :
    ((result (mkController 1 0 0) 1 10 1000).map
        (fun r => (reset r.2).last_timestamp)) = some (10 - 0) ∧
    ((result (mkController 1 0 0) 1 10 1000).map
        (fun r => (reset r.2).circular_buffer_parameters.data)) = some [] ∧
    (10 - 0 : ℚ) ≠ 0 := by
  refine ⟨by rfl, by rfl, by norm_num⟩

/-- Claim C4 counterexample: step at wall clock 10, then `reset()`, then
the first step after the reset at wall clock 20.  Were the clock restarted
at time 0, the timer would now count from 20 and the fresh sample's
timestamp would be 0; instead the timer origin stays 0, the stale
`last_timestamp` enters the computation, and the sample records the
nonzero timestamp 3/200. -/
theorem first_step_after_reset_keeps_clock :
    ((result (mkController 1 0 0) 1 10 1000).bind (fun r =>
        result (reset r.2) 1 20 1000)).map
      (fun r => (r.2.timer_start,
        (get_last_point r.2).map (fun d => d.timestamp)))
      = some (0, some ((20 - 0 - (20 - 0 - (10 - 0)) / 2) / 1000)) ∧
    (20 - 0 - (20 - 0 - (10 - 0)) / 2) / 1000 = (3 / 200 : ℚ) ∧
    (3 / 200 : ℚ) ≠ 0 ∧ (0 : ℚ) ≠ 20 := by
  refine ⟨by rfl, by norm_num, by norm_num, by norm_num⟩

/-- Claim C7 counterexample: one step call with gain 1 and input 5 stores
control signal `1 * 5 = 5`; the following `deduceResult` call is inactive
(threshold 0) yet returns that stale 5, not the predictive component 0. -/
theorem deduceResult_inactive_returns_stale_control :
    ((result (mkController 1 0 0) 5 1 1000).bind (fun r =>
        deduceResult r.2 1000)).map Prod.fst = some (1 * 5) ∧
    (1 * 5 : ℚ) = 5 ∧ (5 : ℚ) ≠ 0 := by
  refine ⟨by rfl, by norm_num, by decide⟩

/-- Claim C6: the configuration setters' contract.  `SetControlGain`
reports failure (error flag `true`) exactly for values outside `[0, 1]`;
afterwards the gain reads back as the requested value on success and as the
default 1 on failure.  `SetNbElementForInference` accepts exactly the
values `≥ 0` and falls back to the default threshold 25 on rejected input;
neither setter ever clamps. -/
theorem setters_contract (p : lr_guide_parameters) (g : ℚ) (m : ℤ) :
    (SetControlGain p g).1 = decide (g < 0 ∨ 1 < g) ∧
    GetControlGain (SetControlGain p g).2 = (if g < 0 ∨ 1 < g then 1 else g) ∧
    (SetNbElementForInference p m).1 = decide (m < 0) ∧
    GetNbMeasurementsMin (SetNbElementForInference p m).2 = (if m < 0 then 25 else m) := by
  unfold SetControlGain SetNbElementForInference GetControlGain GetNbMeasurementsMin
    DefaultControlGain DefaultNbMinPointsForInference
  constructor
  · split <;> simp_all
  constructor
  · split <;> simp_all
  constructor
  · split <;> simp_all
  · split <;> simp_all

/-- On an empty history, a step call returns the pure proportional value:
one sample never satisfies the activation condition. -/
theorem result_on_empty (p : lr_guide_parameters) (input raw_now : ℚ) (dur : ℤ)
    (hdata : p.circular_buffer_parameters.data = []) :
    (result p input raw_now dur).map Prod.fst = some (p.control_gain * input) := by
  obtain ⟨l, hl, hlle, -⟩ :=
    push_front_concat p.circular_buffer_parameters data_points_init
  have hl0 : l = [] := by
    rw [hdata] at hlle
    exact List.eq_nil_of_length_eq_zero (Nat.le_zero.mp hlle)
  have hplen : (p.circular_buffer_parameters.push_front data_points_init).data.length = 1 := by
    rw [hl, hl0]
    rfl
  obtain ⟨l', hl', -, heq⟩ := result_inactive_eq p input raw_now dur
    (by rw [hdata]; exact Nat.zero_le _)
    (by rw [hplen]; omega)
  rw [heq]
  rfl

/-- Claim C3 (amended): `reset` empties the history and preserves the
configured gain and threshold, but leaves the timing state — the running
stopwatch and `last_timestamp_` — and the control signal untouched;
nevertheless the immediately following step call returns the same value,
gain * raw_measurement, as the same call on a freshly constructed
controller with the same configuration, because a single buffered sample
never satisfies the activation condition. -/
theorem reset_clears_history_and_next_step_matches_fresh
    (s : lr_guide_parameters) (g input raw_now raw_now2 ct : ℚ) (m dur : ℤ)
    (hg : s.control_gain = GetControlGain (mkController g m ct)) :
    (reset s).circular_buffer_parameters.data = [] ∧
    (reset s).control_gain = s.control_gain ∧
    (reset s).min_nb_element_for_inference = s.min_nb_element_for_inference ∧
    (reset s).last_timestamp = s.last_timestamp ∧
    (reset s).timer_start = s.timer_start ∧
    (reset s).control_signal = s.control_signal ∧
    (result (reset s) input raw_now dur).map Prod.fst = some (s.control_gain * input) ∧
    (result (mkController g m ct) input raw_now2 dur).map Prod.fst
      = some (s.control_gain * input) := by
  refine ⟨rfl, rfl, rfl, rfl, rfl, rfl, ?_, ?_⟩
  · exact result_on_empty (reset s) input raw_now dur rfl
  · rw [hg]
    exact result_on_empty (mkController g m ct) input raw_now2 dur rfl

/-- Closed instance of the amended C3 theorem at a concrete controller. -/
theorem reset_clears_history_witness :
    (reset (mkController 1 7 3)).circular_buffer_parameters.data = [] ∧
    (reset (mkController 1 7 3)).control_gain = (mkController 1 7 3).control_gain ∧
    (reset (mkController 1 7 3)).min_nb_element_for_inference
      = (mkController 1 7 3).min_nb_element_for_inference ∧
    (reset (mkController 1 7 3)).last_timestamp = (mkController 1 7 3).last_timestamp ∧
    (reset (mkController 1 7 3)).timer_start = (mkController 1 7 3).timer_start ∧
    (reset (mkController 1 7 3)).control_signal = (mkController 1 7 3).control_signal ∧
    (result (reset (mkController 1 7 3)) 2 5 1000).map Prod.fst
      = some ((mkController 1 7 3).control_gain * 2) ∧
    (result (mkController 1 7 0) 2 4 1000).map Prod.fst
      = some ((mkController 1 7 3).control_gain * 2) :=
  reset_clears_history_and_next_step_matches_fresh
    (mkController 1 7 3) 1 2 5 4 0 7 1000 (by rfl)

/-- The last point of a buffer with known final element. -/
theorem get_last_point_concat {p : lr_guide_parameters}
    {l : List lr_guiding_circular_datapoints} {d : lr_guiding_circular_datapoints}
    (h : p.circular_buffer_parameters.data = l ++ [d])
    (hlen : l.length + 1 ≤ sizeTMod) :
    get_last_point p = some d := by
  unfold get_last_point
  have hsize : p.circular_buffer_parameters.size = l.length + 1 := by
    simp [circular_buffer.size, h]
  have hidx : (p.circular_buffer_parameters.size + sizeTMod - 1) % sizeTMod = l.length := by
    rw [hsize, last_idx (Nat.succ_pos _) hlen]
    rfl
  rw [hidx, h, List.get?_concat_length]

/-- Claim C4 (amended): a step call never restarts the clock — the
emptiness test happens only after the new point has been pushed, so the
stopwatch keeps running from construction; `last_timestamp_` is updated
unconditionally to the elapsed time `raw_now - timer_start`, and the new
sample's timestamp is `(t - delta/2) / 1000` where `t` is the updated
`last_timestamp_` and `delta = t - previous last_timestamp`. -/
theorem step_timestamp_formula (p : lr_guide_parameters) (input raw_now : ℚ)
    (dur : ℤ) (out : ℚ) (q : lr_guide_parameters)
    (hlen : p.circular_buffer_parameters.data.length ≤ 200)
    (h : result p input raw_now dur = some (out, q)) :
    q.timer_start = p.timer_start ∧
    q.last_timestamp = raw_now - p.timer_start ∧
    (get_last_point q).map (fun d => d.timestamp)
      = some (((raw_now - p.timer_start) -
          ((raw_now - p.timer_start) - p.last_timestamp) / 2) / 1000) := by
  by_cases hact : 0 < p.min_nb_element_for_inference ∧
      p.min_nb_element_for_inference <
        ((add_one_point p).circular_buffer_parameters.data.length : ℤ)
  · rw [result_active_none hact] at h
    exact Option.noConfusion h
  · obtain ⟨l, hl, hlle, heq⟩ := result_inactive_eq p input raw_now dur hlen hact
    rw [heq] at h
    injection h with h'
    injection h' with hout hq
    subst hq
    have hlen1 : l.length + 1 ≤ sizeTMod := by
      have h202 : (202 : ℕ) ≤ sizeTMod := by norm_num [sizeTMod]
      omega
    refine ⟨rfl, rfl, ?_⟩
    rw [get_last_point_concat (l := l) rfl hlen1]
    rfl

/-- Closed instance of the amended C4 theorem at a concrete step call. -/
theorem step_timestamp_formula_witness :
    stepOnceState.timer_start = (mkController 1 0 0).timer_start ∧
    stepOnceState.last_timestamp = 10 - (mkController 1 0 0).timer_start ∧
    (get_last_point stepOnceState).map (fun d => d.timestamp)
      = some (((10 - (mkController 1 0 0).timer_start) -
          ((10 - (mkController 1 0 0).timer_start) -
            (mkController 1 0 0).last_timestamp) / 2) / 1000) :=
  step_timestamp_formula (mkController 1 0 0) 1 10 1000 (1 * 1) stepOnceState
    (by decide) (by rfl)

/-- After a successful write through `get_last_point`, a further write
through it succeeds as well. -/
theorem set_last_point_again {p q : lr_guide_parameters}
    {f g : lr_guiding_circular_datapoints → lr_guiding_circular_datapoints}
    (h : set_last_point p f = some q) :
    ∃ r, set_last_point q g = some r := by
  simp only [set_last_point] at h ⊢
  split at h
  · exact absurd h (by simp)
  · next d hd =>
    obtain ⟨hlt, -⟩ := List.get?_eq_some.mp hd
    cases h
    have hs : ({ p with circular_buffer_parameters :=
        { p.circular_buffer_parameters with
          data := p.circular_buffer_parameters.data.set
            ((p.circular_buffer_parameters.size + sizeTMod - 1) % sizeTMod) (f d) } }
          : lr_guide_parameters).circular_buffer_parameters.size
        = p.circular_buffer_parameters.size := by
      simp [circular_buffer.size]
    rw [hs, List.get?_set_eq_of_lt _ hlt]
    exact ⟨_, rfl⟩

/-- Claim C7 (amended): a defined `deduceResult` call returns the stored
control signal — when inactive this is the unchanged previous control
signal, not necessarily 0 — while history length and timing state are
preserved (only the last point's control field is rewritten); a second
`deduceResult` call with the same input then returns the identical
output. -/
theorem deduceResult_returns_stored_control (s : lr_guide_parameters) (dur : ℤ)
    (out : ℚ) (s2 : lr_guide_parameters)
    (h : deduceResult s dur = some (out, s2)) :
    out = s.control_signal ∧
    s2.circular_buffer_parameters.data.length
      = s.circular_buffer_parameters.data.length ∧
    s2.timer_start = s.timer_start ∧
    s2.last_timestamp = s.last_timestamp ∧
    (deduceResult s2 dur).map Prod.fst = some out := by
  have hinact : ¬(0 < s.min_nb_element_for_inference ∧
      s.min_nb_element_for_inference < (get_number_of_measurements s : ℤ)) := by
    intro hact
    rw [deduceResult_active_none hact] at h
    exact Option.noConfusion h
  rw [deduceResult_inactive_eq s dur hinact] at h
  cases hsl : set_last_point s (fun d => { d with control := s.control_signal }) with
  | none =>
    rw [hsl] at h
    exact Option.noConfusion h
  | some q =>
    rw [hsl] at h
    injection h with h'
    injection h' with hout hq
    subst hq
    have hq' := set_last_point_some hsl
    refine ⟨by rw [← hout, hq'.2.1], hq'.2.2.2.2.2.2.2, hq'.1, hq'.2.2.2.1, ?_⟩
    have hinact2 : ¬(0 < q.min_nb_element_for_inference ∧
        q.min_nb_element_for_inference < (get_number_of_measurements q : ℤ)) := by
      have e1 : q.min_nb_element_for_inference = s.min_nb_element_for_inference :=
        hq'.2.2.2.2.2.1
      have e2 : (get_number_of_measurements q : ℤ)
          = (get_number_of_measurements s : ℤ) := by
        show ((q.circular_buffer_parameters.data.length : ℕ) : ℤ) = _
        rw [hq'.2.2.2.2.2.2.2]
        rfl
      rw [e1, e2]
      exact hinact
    rw [deduceResult_inactive_eq q dur hinact2]
    obtain ⟨r, hr⟩ := set_last_point_again
      (g := fun d => { d with control := q.control_signal }) hsl
    rw [hr]
    have hr' := set_last_point_some hr
    rw [show ((some r).map (fun t => (t.control_signal, t))).map Prod.fst
        = some r.control_signal from rfl]
    rw [hr'.2.1, hout]

/-- Closed instance of the amended C7 theorem at a one-sample state. -/
theorem deduceResult_returns_stored_control_witness :
    (5 : ℚ) = oneSampleState.control_signal ∧
    oneSampleState.circular_buffer_parameters.data.length
      = oneSampleState.circular_buffer_parameters.data.length ∧
    oneSampleState.timer_start = oneSampleState.timer_start ∧
    oneSampleState.last_timestamp = oneSampleState.last_timestamp ∧
    (deduceResult oneSampleState 1000).map Prod.fst = some 5 :=
  deduceResult_returns_stored_control oneSampleState 1000 5 oneSampleState (by rfl)

/-- Claim C9: whenever the activation condition holds the buffer has at
least two points, the `n == 1` special case cannot apply, and the data
transfer reads `circular_buffer_parameters[i-1]` at `i = 0` with the
unsigned index wrapped to `2 ^ 64 - 1` — out of the buffer's range.  In the
total embedding the loop yields `none` on every activated call, and with it
both `result` and `deduceResult`. -/
theorem transfer_loop_oob_on_activation (p : lr_guide_parameters)
    (input raw_now : ℚ) (dur : ℤ)
    (hlen : p.circular_buffer_parameters.data.length ≤ 200)
    (hmin : 0 < p.min_nb_element_for_inference)
    (hact : p.min_nb_element_for_inference < (get_number_of_measurements p : ℤ)) :
    transfer_loop p = none ∧
    result p input raw_now dur = none ∧
    deduceResult p dur = none := by
  have hn : get_number_of_measurements p = p.circular_buffer_parameters.data.length := rfl
  have h2 : 2 ≤ p.circular_buffer_parameters.data.length := by
    rw [hn] at hact
    omega
  refine ⟨transfer_loop_none h2 hlen, ?_, deduceResult_active_none ⟨hmin, hact⟩⟩
  apply result_active_none
  refine ⟨hmin, ?_⟩
  have hge := push_front_length_ge (b := p.circular_buffer_parameters) data_points_init
  have he : (add_one_point p).circular_buffer_parameters.data.length
      = (p.circular_buffer_parameters.push_front data_points_init).data.length := rfl
  rw [hn] at hact
  rw [he]
  omega

/-- Closed instance of the C9 theorem at a two-sample activated state. -/
theorem transfer_loop_oob_witness :
    transfer_loop twoSampleActiveState = none ∧
    result twoSampleActiveState 1 3 1000 = none ∧
    deduceResult twoSampleActiveState 1000 = none :=
  transfer_loop_oob_on_activation twoSampleActiveState 1 3 1000
    (by decide) (by decide) (by decide)

/-- Claim C10: calling `deduceResult` on an empty history (fresh
controller, or right after `reset`) unconditionally reaches
`HandleControls`, whose `get_last_point` accessor indexes the empty buffer
at the wrapped `size() - 1 = 2 ^ 64 - 1` — out of range — so the call has
no defined value; `deduceResult` is only safe once a step call has
populated the buffer. -/
theorem deduceResult_empty_buffer_faults (p : lr_guide_parameters) (dur : ℤ)
    (hdata : p.circular_buffer_parameters.data = []) :
    deduceResult p dur = none := by
  have hn : get_number_of_measurements p = 0 := by
    simp [get_number_of_measurements, circular_buffer.size, hdata]
  have hinact : ¬(0 < p.min_nb_element_for_inference ∧
      p.min_nb_element_for_inference < (get_number_of_measurements p : ℤ)) := by
    rw [hn]
    simp only [Nat.cast_zero]
    omega
  rw [deduceResult_inactive_eq p dur hinact]
  have hnone : set_last_point p (fun d => { d with control := p.control_signal })
      = none := by
    simp only [set_last_point]
    rw [hdata]
    simp
  rw [hnone]
  rfl

/-- Closed instance of the C10 theorem on a freshly constructed
controller. -/
theorem deduceResult_empty_buffer_witness :
    deduceResult (mkController 1 25 0) 1000 = none :=
  deduceResult_empty_buffer_faults (mkController 1 25 0) 1000 (by rfl)

/-- Folding insertions over a capacity-200 ring keeps exactly the most
recent 200 elements: the contents equal the pushed sequence with its
overflow prefix dropped. -/
theorem push_fold (xs : List lr_guiding_circular_datapoints) (b : circular_buffer)
    (hcap : b.capacity = 200) (hlen : b.data.length ≤ 200) :
    (List.foldl circular_buffer.push_front b xs).data
      = (b.data ++ xs).drop (b.data.length + xs.length - 200) := by
  induction xs generalizing b with
  | nil =>
    simp only [List.foldl_nil, List.append_nil, List.length_nil, Nat.add_zero]
    rw [show b.data.length - 200 = 0 from by omega, List.drop_zero]
  | cons x xs ih =>
    rw [List.foldl_cons]
    by_cases hfull : b.capacity ≤ b.data.length
    · have h200 : b.data.length = 200 := le_antisymm hlen (hcap ▸ hfull)
      rcases hbd : b.data with _ | ⟨hd, tl⟩
      · rw [hbd] at h200
        exact absurd h200 (by simp)
      · have htl : tl.length = 199 := by
          rw [hbd] at h200
          simpa using h200
        have hpush : b.push_front x = ⟨b.capacity, tl ++ [x]⟩ := by
          unfold circular_buffer.push_front
          rw [if_pos hfull, hbd]
          rfl
        rw [hpush, ih ⟨b.capacity, tl ++ [x]⟩ hcap (by simp; omega)]
        simp only [List.length_append, List.length_cons, List.length_nil,
          Nat.zero_add, List.cons_append, List.append_assoc, List.singleton_append]
        rw [show tl.length + 1 + xs.length - 200 = xs.length from by omega,
          show tl.length + 1 + (xs.length + 1) - 200 = xs.length + 1 from by omega]
        rw [List.drop_succ_cons]
        simp
    · have hpush : b.push_front x = ⟨b.capacity, b.data ++ [x]⟩ := by
        unfold circular_buffer.push_front
        rw [if_neg hfull]
      have hlt : b.data.length < 200 := by omega
      rw [hpush, ih ⟨b.capacity, b.data ++ [x]⟩ hcap (by simp; omega)]
      simp only [List.length_append, List.length_cons, List.length_nil,
        Nat.zero_add, List.append_assoc, List.singleton_append]
      rw [show b.data.length + 1 + xs.length - 200
          = b.data.length + (xs.length + 1) - 200 from by omega]

/-- A defined `result` call preserves the capacity bound. -/
theorem result_preserves_length {p : lr_guide_parameters} {input raw_now : ℚ}
    {dur : ℤ} {out : ℚ} {q : lr_guide_parameters}
    (hcap : p.circular_buffer_parameters.capacity = 200)
    (hlen : p.circular_buffer_parameters.data.length ≤ 200)
    (h : result p input raw_now dur = some (out, q)) :
    q.circular_buffer_parameters.capacity = 200 ∧
    q.circular_buffer_parameters.data.length ≤ 200 := by
  by_cases hact : 0 < p.min_nb_element_for_inference ∧
      p.min_nb_element_for_inference <
        ((add_one_point p).circular_buffer_parameters.data.length : ℤ)
  · rw [result_active_none hact] at h
    exact Option.noConfusion h
  · obtain ⟨l, hl, hlle, heq⟩ := result_inactive_eq p input raw_now dur hlen hact
    rw [heq] at h
    injection h with h'
    injection h' with h1 h2
    subst h2
    refine ⟨hcap, ?_⟩
    have hp := push_front_length_le (b := p.circular_buffer_parameters)
      data_points_init hcap hlen
    have he : (p.circular_buffer_parameters.push_front data_points_init).data.length
        = l.length + 1 := by
      rw [hl]
      simp
    show (l ++ [_]).length ≤ 200
    simp only [List.length_append, List.length_cons, List.length_nil, Nat.zero_add]
    omega

/-- A defined `deduceResult` call preserves the capacity bound. -/
theorem deduceResult_preserves_length {p : lr_guide_parameters} {dur : ℤ}
    {out : ℚ} {q : lr_guide_parameters}
    (hcap : p.circular_buffer_parameters.capacity = 200)
    (hlen : p.circular_buffer_parameters.data.length ≤ 200)
    (h : deduceResult p dur = some (out, q)) :
    q.circular_buffer_parameters.capacity = 200 ∧
    q.circular_buffer_parameters.data.length ≤ 200 := by
  have hinact : ¬(0 < p.min_nb_element_for_inference ∧
      p.min_nb_element_for_inference < (get_number_of_measurements p : ℤ)) := by
    intro hact
    rw [deduceResult_active_none hact] at h
    exact Option.noConfusion h
  rw [deduceResult_inactive_eq p dur hinact] at h
  cases hsl : set_last_point p (fun d => { d with control := p.control_signal }) with
  | none =>
    rw [hsl] at h
    exact Option.noConfusion h
  | some r =>
    rw [hsl] at h
    injection h with h'
    injection h' with h1 h2
    subst h2
    have hr := set_last_point_some hsl
    exact ⟨hr.2.2.2.2.2.2.1 ▸ hcap, hr.2.2.2.2.2.2.2 ▸ hlen⟩

/-- Any defined sequence of step, predict and reset operations keeps the
buffer within its 200-sample capacity. -/
theorem runOps_preserves_length (ops : List LROp) :
    ∀ p q : lr_guide_parameters,
      p.circular_buffer_parameters.capacity = 200 →
      p.circular_buffer_parameters.data.length ≤ 200 →
      runOps p ops = some q →
      q.circular_buffer_parameters.capacity = 200 ∧
      q.circular_buffer_parameters.data.length ≤ 200 := by
  induction ops with
  | nil =>
    intro p q hcap hlen h
    injection h with h'
    subst h'
    exact ⟨hcap, hlen⟩
  | cons op ops ih =>
    intro p q hcap hlen h
    simp only [runOps] at h
    cases hap : applyOp p op with
    | none =>
      rw [hap] at h
      exact Option.noConfusion h
    | some r =>
      rw [hap] at h
      simp only [Option.some_bind'] at h
      have hr : r.circular_buffer_parameters.capacity = 200 ∧
          r.circular_buffer_parameters.data.length ≤ 200 := by
        cases op with
        | step input raw_now dur =>
          simp only [applyOp] at hap
          cases hres : result p input raw_now dur with
          | none =>
            rw [hres] at hap
            exact Option.noConfusion hap
          | some rr =>
            rw [hres] at hap
            injection hap with hap'
            subst hap'
            exact result_preserves_length hcap hlen (by rw [hres])
        | predict dur =>
          simp only [applyOp] at hap
          cases hres : deduceResult p dur with
          | none =>
            rw [hres] at hap
            exact Option.noConfusion hap
          | some rr =>
            rw [hres] at hap
            injection hap with hap'
            subst hap'
            exact deduceResult_preserves_length hcap hlen (by rw [hres])
        | doReset =>
          simp only [applyOp] at hap
          injection hap with hap'
          subst hap'
          exact ⟨hcap, by simp [reset, lr_clear]⟩
      exact ih r q hr.1 hr.2 h

/-- Claim C8: the history ring never exceeds its 200-sample capacity under
any defined sequence of step, predict and reset operations; inserting a
sequence of points into the ring keeps exactly the most recent
`min(total, 200)` of them, the oldest being evicted first, so evicted
samples no longer appear in the window the regression reads. -/
theorem buffer_bounded_and_fifo (xs : List lr_guiding_circular_datapoints)
    (ops : List LROp) (p q : lr_guide_parameters)
    (hcap : p.circular_buffer_parameters.capacity = 200)
    (hlen : p.circular_buffer_parameters.data.length ≤ 200)
    (hrun : runOps p ops = some q) :
    (List.foldl circular_buffer.push_front ⟨200, []⟩ xs).data
      = xs.drop (xs.length - 200) ∧
    (List.foldl circular_buffer.push_front ⟨200, []⟩ xs).data.length
      = min xs.length 200 ∧
    q.circular_buffer_parameters.data.length ≤ 200 := by
  have hf := push_fold xs ⟨200, []⟩ rfl (by simp)
  simp only [List.nil_append, List.length_nil, Nat.zero_add] at hf
  refine ⟨hf, ?_, (runOps_preserves_length ops p q hcap hlen hrun).2⟩
  rw [hf, List.length_drop]
  omega

/-- Closed instance of the C8 theorem: three insertions and a
reset-operation run. -/
theorem buffer_bounded_and_fifo_witness :
    (List.foldl circular_buffer.push_front ⟨200, []⟩
        [data_points_init, data_points_init, data_points_init]).data
      = [data_points_init, data_points_init,
          data_points_init].drop ([data_points_init, data_points_init,
          data_points_init].length - 200) ∧
    (List.foldl circular_buffer.push_front ⟨200, []⟩
        [data_points_init, data_points_init, data_points_init]).data.length
      = min [data_points_init, data_points_init, data_points_init].length 200 ∧
    (reset (mkController 1 0 0)).circular_buffer_parameters.data.length ≤ 200 :=
  buffer_bounded_and_fifo [data_points_init, data_points_init, data_points_init]
    [LROp.doReset] (mkController 1 0 0) (reset (mkController 1 0 0))
    (by rfl) (by decide) (by rfl)
